import Mathlib

/-!
Verification of the BMP-to-raw conversion program nextraw (src/nextraw.c).

The program is embedded shallowly:

* Byte buffers are modelled as functions from offsets to byte values
  (or as lists of bytes where a length matters); machine integers are
  modelled by natural numbers with explicit reductions modulo 2^32 at
  the points where 32-bit arithmetic can overflow.
* The BMP header validator (is_valid_bmp_file, nextraw.c lines 219-289)
  becomes a function into Except over an error enumeration.
* The pixel repacking loops (nextraw.c lines 461-517) become folds of
  single-byte stores over an output buffer.
* The palette conversion (create_raw_palette, lines 296-319) becomes a
  recursively built list of bytes, two bytes per palette entry.
-/

namespace Nextraw

/-- Little-endian 16-bit read of a byte buffer at offset o, as done by the
type-punned reads of the C header parser on a little-endian machine. Each
byte is reduced mod 256 because the buffer holds uint8 values. -/
def le16 (f : Nat → Nat) (o : Nat) : Nat :=
  f o % 256 + (f (o + 1) % 256) * 256

/-- Little-endian 32-bit read of a byte buffer at offset o. -/
def le32 (f : Nat → Nat) (o : Nat) : Nat :=
  f o % 256 + (f (o + 1) % 256) * 256 + (f (o + 2) % 256) * 65536 +
    (f (o + 3) % 256) * 16777216

/-- Reinterpret a 32-bit unsigned value as a two's-complement signed int32,
modelling the C read of the signed height field. -/
def int32ofLe (v : Nat) : Int :=
  if v < 2147483648 then (v : Int) else (v : Int) - 4294967296

/-- The error taxonomy of the program: one constructor per distinct
diagnostic message printed by nextraw.c before it exits. The first ten
correspond to the header-validation failures (lines 224-287 plus the
short-read check at line 365); the last two model the I/O failures when
reading the palette and the image data (lines 393-395 and 402-404). -/
inductive BmpError where
  | TruncatedHeader
  | NotABmpFile
  | FileTooSmall
  | InvalidHeader
  | UnsupportedHeader
  | InvalidWidth
  | InvalidHeight
  | InvalidImageSize
  | UnsupportedBitDepth
  | UnsupportedCompression
  | IoErrorPaletteRead
  | IoErrorImageRead
deriving DecidableEq

/-- The values the validator extracts from the header
(out-parameters of is_valid_bmp_file in nextraw.c). -/
structure BmpInfo where
  palette_offset : Nat
  image_offset : Nat
  width : Nat
  height : Int
deriving DecidableEq

/-- Embedding of is_valid_bmp_file (nextraw.c lines 219-289). The checks are
performed in source order; each if mirrors one C if statement. Multiplication
of the uint32 width by the uint32-converted absolute height is 32-bit
arithmetic, hence the reduction mod 4294967296 in the image-size check
(line 268: image_width * abs(image_height), computed in uint32). The
palette offset is FILE_HEADER_SIZE + dib_header_size in uint32 (line 252). -/
def is_valid_bmp_file (header : Nat → Nat) : Except BmpError BmpInfo :=
  if header 0 ≠ 66 ∨ header 1 ≠ 77 then .error .NotABmpFile
  else if le32 header 2 < 1082 then .error .FileTooSmall
  else if le32 header 10 ≥ le32 header 2 then .error .InvalidHeader
  else if le32 header 14 < 40 then .error .UnsupportedHeader
  else if le32 header 18 = 0 then .error .InvalidWidth
  else if int32ofLe (le32 header 22) = 0 then .error .InvalidHeight
  else if (le32 header 18 * (int32ofLe (le32 header 22)).natAbs) % 4294967296 ≥
      le32 header 2 then .error .InvalidImageSize
  else if le16 header 28 ≠ 8 then .error .UnsupportedBitDepth
  else if le32 header 30 ≠ 0 then .error .UnsupportedCompression
  else .ok ⟨(14 + le32 header 14) % 4294967296, le32 header 10, le32 header 18,
    int32ofLe (le32 header 22)⟩

/-- The header-reading phase of main (nextraw.c lines 365-372): reading the
54-byte header fails if the file holds fewer than 54 bytes, otherwise the
header bytes are validated. -/
def validate_file (file : List Nat) : Except BmpError BmpInfo :=
  if file.length < 54 then .error .TruncatedHeader
  else is_valid_bmp_file (fun i => file.getD i 0)

/-- Embedding of c8_to_c3 (nextraw.c lines 291-294), which computes
round(c8 * 7.0 / 255.0) in double precision. For a byte c the rational
7c/255 is never a half-integer (7c/255 = m + 1/2 would force the even
number 14c to equal the odd number 255(2m+1)), its distance to the nearest
half-integer is at least 1/510, and the double evaluation of c*7.0/255.0 is
exact up to an error far below 1/510, so the C round (half away from zero)
agrees with exact rational rounding, which for nonnegative arguments is
floor(7c/255 + 1/2) = (14c + 255) / 510 in integer division. -/
def c8_to_c3 (c8 : Nat) : Nat :=
  (14 * c8 + 255) / 510

/-- The 9-bit RGB333 value packed from BMP palette entry i
(nextraw.c lines 303-312): the BMP palette stores BGRA quadruples, so
red is byte 4i+2, green is byte 4i+1, blue is byte 4i. -/
def rgb333_of (palette : Nat → Nat) (i : Nat) : Nat :=
  (c8_to_c3 (palette (4 * i + 2)) <<< 6) ||| (c8_to_c3 (palette (4 * i + 1)) <<< 3) |||
    c8_to_c3 (palette (4 * i))

/-- Embedding of create_raw_palette (nextraw.c lines 296-319): the loop body
for entry i appends the byte pair (rgb333 >> 1, rgb333 & 1) to the raw
palette, so after n iterations the raw palette is the concatenation of the
byte pairs of entries 0..n-1. -/
def create_raw_palette (palette : Nat → Nat) : Nat → List Nat
  | 0 => []
  | n + 1 =>
    create_raw_palette palette n ++
      [rgb333_of palette n >>> 1, rgb333_of palette n &&& 1]

theorem create_raw_palette_length (palette : Nat → Nat) (n : Nat) :
    (create_raw_palette palette n).length = 2 * n := by
  induction n with
  | zero => rfl
  | succ m ih => simp [create_raw_palette, ih]; omega

theorem create_raw_palette_get (palette : Nat → Nat) (n i : Nat) (h : i < n) :
    (create_raw_palette palette n)[2 * i]? = some (rgb333_of palette i >>> 1) ∧
    (create_raw_palette palette n)[2 * i + 1]? = some (rgb333_of palette i &&& 1) := by
  induction n with
  | zero => omega
  | succ m ih =>
    by_cases hm : i < m
    · obtain ⟨h1, h2⟩ := ih hm
      have hlen := create_raw_palette_length palette m
      unfold create_raw_palette
      rw [List.getElem?_append_left (by omega), List.getElem?_append_left (by omega)]
      exact ⟨h1, h2⟩
    · have hi : i = m := by omega
      subst hi
      have hlen := create_raw_palette_length palette i
      unfold create_raw_palette
      rw [List.getElem?_append_right (by omega), List.getElem?_append_right (by omega),
        hlen]
      constructor
      · rw [show 2 * i - 2 * i = 0 by omega]
        rfl
      · rw [show 2 * i + 1 - 2 * i = 1 by omega]
        rfl

/-- padded_image_width = (image_width + 3) & ~0x03 in uint32 arithmetic
(nextraw.c line 377): clearing the two lowest bits of the 32-bit value
w + 3 rounds w up to the next multiple of 4. -/
def padded_image_width (w : Nat) : Nat :=
  ((w + 3) % 4294967296) / 4 * 4

/-- raw_image_width (nextraw.c line 452): (image_width + image_width % 2) / 2
in 4-bit mode, image_width in 8-bit mode; uint32 arithmetic. -/
def raw_image_width (use4 : Bool) (w : Nat) : Nat :=
  if use4 then ((w + w % 2) % 4294967296) / 2 else w

/-- raw_image_size = raw_image_width * image_height in uint32
(nextraw.c line 453). -/
def raw_image_size (use4 : Bool) (w h : Nat) : Nat :=
  raw_image_width use4 w * h % 4294967296

/-- Start offset, inside the padded source pixel buffer, of the row shown at
display position y (nextraw.c lines 445-449 and the per-row pointer stepping
at lines 474, 486, 503, 513): for a bottom-to-top file the pointer starts at
image_size - padded_image_width and walks backward one padded row per
iteration, otherwise it starts at 0 and walks forward. -/
def rowStart (b2t : Bool) (paddedW h y : Nat) : Nat :=
  if b2t then (h - 1 - y) * paddedW else y * paddedW

/-- The source pixel shown at display row y, column x. -/
def display_pixel (image : Nat → Nat) (b2t : Bool) (paddedW h y x : Nat) : Nat :=
  image (rowStart b2t paddedW h y + x)

/-- One byte of 4-bit output, merging the pixel pair with pair index k of the
row starting at base (nextraw.c lines 470-472 and 499-501):
left_pixel = (image_ptr[2k] & 0x0F) << 4, right_pixel = image_ptr[2k+1] & 0x0F,
stored byte = left_pixel | right_pixel. -/
def pairByte (image : Nat → Nat) (base k : Nat) : Nat :=
  ((image (base + 2 * k) &&& 15) <<< 4) ||| (image (base + 2 * k + 1) &&& 15)

/-- A single store raw_image[idx] = val into an output buffer modelled as a
function from offsets to bytes. -/
def writeByte (buf : Nat → Nat) (idx val : Nat) : Nat → Nat :=
  fun j => if j = idx then val else buf j

/-- The inner loop of a repacking branch: n stores performed in order
k = 0, 1, ..., n-1, each writing val k at offset idx k. -/
def writeRow (idx val : Nat → Nat) (buf : Nat → Nat) : Nat → Nat → Nat
  | 0 => buf
  | n + 1 => writeByte (writeRow idx val buf n) (idx n) (val n)

/-- The outer loop of a repacking branch: rows y = 0, 1, ..., h-1 processed in
order, each performing cols stores. -/
def writeGrid (idx val : Nat → Nat → Nat) (cols : Nat) (buf : Nat → Nat) :
    Nat → Nat → Nat
  | 0 => buf
  | y + 1 => writeRow (idx y) (val y) (writeGrid idx val cols buf y) cols

theorem writeRow_eq_of_ne (idx val : Nat → Nat) (buf : Nat → Nat) (n i : Nat)
    (h : ∀ k < n, idx k ≠ i) : writeRow idx val buf n i = buf i := by
  induction n with
  | zero => rfl
  | succ m ih =>
    show writeByte (writeRow idx val buf m) (idx m) (val m) i = buf i
    unfold writeByte
    rw [if_neg (fun he => h m (Nat.lt_succ_self m) he.symm)]
    exact ih (fun k hk => h k (Nat.lt_succ_of_lt hk))

theorem writeRow_eq_of_hit (idx val : Nat → Nat) (buf : Nat → Nat) (n k0 : Nat)
    (hk0 : k0 < n) (huniq : ∀ k < n, idx k = idx k0 → k = k0) :
    writeRow idx val buf n (idx k0) = val k0 := by
  induction n with
  | zero => omega
  | succ m ih =>
    show writeByte (writeRow idx val buf m) (idx m) (val m) (idx k0) = val k0
    by_cases hm : k0 = m
    · subst hm
      simp [writeByte]
    · have hk0' : k0 < m := by omega
      unfold writeByte
      rw [if_neg (fun he => hm (huniq m (Nat.lt_succ_self m) he.symm).symm)]
      exact ih hk0' (fun k hk he => huniq k (Nat.lt_succ_of_lt hk) he)

theorem writeGrid_eq_of_ne (idx val : Nat → Nat → Nat) (cols : Nat)
    (buf : Nat → Nat) (h i : Nat)
    (hno : ∀ y < h, ∀ k < cols, idx y k ≠ i) :
    writeGrid idx val cols buf h i = buf i := by
  induction h with
  | zero => rfl
  | succ m ih =>
    show writeRow (idx m) (val m) (writeGrid idx val cols buf m) cols i = buf i
    rw [writeRow_eq_of_ne _ _ _ _ _ (fun k hk => hno m (Nat.lt_succ_self m) k hk)]
    exact ih (fun y hy k hk => hno y (Nat.lt_succ_of_lt hy) k hk)

theorem writeGrid_eq_of_hit (idx val : Nat → Nat → Nat) (cols : Nat)
    (buf : Nat → Nat) (h y0 k0 : Nat) (hy0 : y0 < h) (hk0 : k0 < cols)
    (huniq : ∀ y < h, ∀ k < cols, idx y k = idx y0 k0 → y = y0 ∧ k = k0) :
    writeGrid idx val cols buf h (idx y0 k0) = val y0 k0 := by
  induction h with
  | zero => omega
  | succ m ih =>
    show writeRow (idx m) (val m) (writeGrid idx val cols buf m) cols (idx y0 k0)
      = val y0 k0
    by_cases hy : y0 = m
    · subst hy
      exact writeRow_eq_of_hit _ _ _ _ _ hk0
        (fun k hk he => (huniq y0 (Nat.lt_succ_self y0) k hk he).2)
    · have hy0' : y0 < m := by omega
      rw [writeRow_eq_of_ne _ _ _ _ _
        (fun k hk he => hy (huniq m (Nat.lt_succ_self m) k hk he).1.symm)]
      exact ih hy0' (fun y hyy k hk he => huniq y (Nat.lt_succ_of_lt hyy) k hk he)

/-- Row-major flat offsets y*W + k with k, k' < W determine row and column. -/
theorem rowMajor_index_inj (W y k y' k' : Nat) (hk : k < W) (hk' : k' < W)
    (h : y' * W + k' = y * W + k) : y' = y ∧ k' = k := by
  have hW : 0 < W := by omega
  have e1 : (y' * W + k') / W = y' := by
    rw [Nat.mul_comm, Nat.mul_add_div hW, Nat.div_eq_of_lt hk', Nat.add_zero]
  have e2 : (y * W + k) / W = y := by
    rw [Nat.mul_comm, Nat.mul_add_div hW, Nat.div_eq_of_lt hk, Nat.add_zero]
  have hy : y' = y := by rw [← e1, ← e2, h]
  subst hy
  exact ⟨rfl, by omega⟩

/-- Column-major flat offsets y + k*h with y, y' < h determine row and column. -/
theorem colMajor_index_inj (h y k y' k' : Nat) (hy : y < h) (hy' : y' < h)
    (he : y' + k' * h = y + k * h) : y' = y ∧ k' = k := by
  have e1 : (y' + k' * h) % h = y' := by
    rw [Nat.add_mul_mod_self_right, Nat.mod_eq_of_lt hy']
  have e2 : (y + k * h) % h = y := by
    rw [Nat.add_mul_mod_self_right, Nat.mod_eq_of_lt hy]
  have hyy : y' = y := by rw [← e1, ← e2, he]
  subst hyy
  refine ⟨rfl, ?_⟩
  have : k' * h = k * h := by omega
  exact Nat.eq_of_mul_eq_mul_right (by omega) this

/-- The 4-bit column-major repacking loop (nextraw.c lines 463-476):
for each display row y and pair index k = x/2 (the inner loop runs once per
x = 0, 2, ... with x < image_width, i.e. ceil(width/2) = (width+1)/2 times),
store the merged pair byte at raw_image[y + (x/2)*image_height]. -/
def conv_4bit_col (image : Nat → Nat) (b2t : Bool) (paddedW w h : Nat)
    (buf : Nat → Nat) : Nat → Nat :=
  writeGrid (fun y k => y + k * h)
    (fun y k => pairByte image (rowStart b2t paddedW h y) k) ((w + 1) / 2) buf h

/-- The 8-bit column-major repacking loop (nextraw.c lines 477-488):
raw_image[y + x*image_height] = image_ptr[x] for x < image_width. -/
def conv_8bit_col (image : Nat → Nat) (b2t : Bool) (paddedW w h : Nat)
    (buf : Nat → Nat) : Nat → Nat :=
  writeGrid (fun y x => y + x * h)
    (fun y x => image (rowStart b2t paddedW h y + x)) w buf h

/-- The 4-bit row-major repacking loop (nextraw.c lines 492-505):
raw_image[y * raw_image_width + x/2] = merged pair byte. -/
def conv_4bit_row (image : Nat → Nat) (b2t : Bool) (paddedW w h : Nat)
    (buf : Nat → Nat) : Nat → Nat :=
  writeGrid (fun y k => y * raw_image_width true w + k)
    (fun y k => pairByte image (rowStart b2t paddedW h y) k) ((w + 1) / 2) buf h

/-- The 8-bit row-major branch (nextraw.c lines 506-516): memcpy of the
image_width leading bytes of each padded row to raw_image + y*image_width,
i.e. byte x of display row y is stored at raw_image[y*image_width + x]. -/
def conv_8bit_row (image : Nat → Nat) (b2t : Bool) (paddedW w h : Nat)
    (buf : Nat → Nat) : Nat → Nat :=
  writeGrid (fun y x => y * w + x)
    (fun y x => image (rowStart b2t paddedW h y + x)) w buf h

/-- Dispatch over the four mutually exclusive repacking branches
(nextraw.c lines 461-517), selected by (column_layout, use_4bit). -/
def convert_image (image : Nat → Nat) (b2t : Bool) (paddedW w h : Nat)
    (use4 colMajor : Bool) (buf : Nat → Nat) : Nat → Nat :=
  if colMajor then
    if use4 then conv_4bit_col image b2t paddedW w h buf
    else conv_8bit_col image b2t paddedW w h buf
  else
    if use4 then conv_4bit_row image b2t paddedW w h buf
    else conv_8bit_row image b2t paddedW w h buf

/-- The raw image as written to the output file: the first raw_image_size
bytes of the converted buffer (nextraw.c line 520). The malloc-ed output
buffer is modelled as initially all zero; every offset below raw_image_size
is in fact overwritten by the conversion loops. -/
def raw_image_bytes (image : Nat → Nat) (b2t : Bool) (paddedW w h : Nat)
    (use4 colMajor : Bool) : List Nat :=
  (List.range (raw_image_size use4 w h)).map
    (convert_image image b2t paddedW w h use4 colMajor (fun _ => 0))

theorem raw4_width_eq (w : Nat) (hw : w + w % 2 < 4294967296) :
    raw_image_width true w = (w + 1) / 2 := by
  unfold raw_image_width
  simp only [if_true]
  omega

theorem conv_4bit_row_at (image : Nat → Nat) (b2t : Bool) (paddedW w h : Nat)
    (buf : Nat → Nat) (y k : Nat) (hy : y < h) (hk : 2 * k < w)
    (hw : w + w % 2 < 4294967296) :
    conv_4bit_row image b2t paddedW w h buf (y * raw_image_width true w + k) =
      pairByte image (rowStart b2t paddedW h y) k := by
  have hraw := raw4_width_eq w hw
  have hkr : k < (w + 1) / 2 := by omega
  exact writeGrid_eq_of_hit _ _ _ _ _ _ _ hy hkr
    (fun y' hy' k' hk' he =>
      rowMajor_index_inj (raw_image_width true w) y k y' k'
        (by omega) (by omega) he)

theorem conv_4bit_col_at (image : Nat → Nat) (b2t : Bool) (paddedW w h : Nat)
    (buf : Nat → Nat) (y k : Nat) (hy : y < h) (hk : 2 * k < w) :
    conv_4bit_col image b2t paddedW w h buf (y + k * h) =
      pairByte image (rowStart b2t paddedW h y) k := by
  have hkr : k < (w + 1) / 2 := by omega
  exact writeGrid_eq_of_hit _ _ _ _ _ _ _ hy hkr
    (fun y' hy' k' hk' he => colMajor_index_inj h y k y' k' hy hy' he)

theorem conv_8bit_row_at (image : Nat → Nat) (b2t : Bool) (paddedW w h : Nat)
    (buf : Nat → Nat) (y x : Nat) (hy : y < h) (hx : x < w) :
    conv_8bit_row image b2t paddedW w h buf (y * w + x) =
      display_pixel image b2t paddedW h y x := by
  exact writeGrid_eq_of_hit _ _ _ _ _ _ _ hy hx
    (fun y' hy' x' hx' he => rowMajor_index_inj w y x y' x' hx hx' he)

theorem conv_8bit_col_at (image : Nat → Nat) (b2t : Bool) (paddedW w h : Nat)
    (buf : Nat → Nat) (y x : Nat) (hy : y < h) (hx : x < w) :
    conv_8bit_col image b2t paddedW w h buf (y + x * h) =
      display_pixel image b2t paddedW h y x := by
  exact writeGrid_eq_of_hit _ _ _ _ _ _ _ hy hx
    (fun y' hy' x' hx' he => colMajor_index_inj h y x y' x' hy hy' he)

/-- A concrete palette whose entry 0 is the BGRA quadruple (0, 128, 255, 0),
i.e. the RGB888 color (255, 128, 0). -/
def examplePalette : Nat → Nat :=
  fun j => if j = 2 then 255 else if j = 1 then 128 else 0

theorem nibble_shift_lor_and : ∀ x ≤ 15, ∀ y ≤ 15, ((x <<< 4) ||| y) &&& 15 = y := by
  decide

/-- C1 counterexample: for the palette entry with RGB888 = (255, 128, 0) the
code produces rgb333 = 0x1E0 = 480 (not 0x1C0 = 448) and the byte pair
(0xF0, 0x00) (not (0xE0, 0x00)): the three 3-bit channels are r3 = 7,
g3 = 4, b3 = 0, and (7 << 6) | (4 << 3) | 0 = 0b111100000 = 480. -/
theorem spec_C1_counterexample :
    rgb333_of examplePalette 0 = 480 ∧ (480 : Nat) ≠ 448 ∧
    (create_raw_palette examplePalette 16)[0]? = some 240 ∧
    (create_raw_palette examplePalette 16)[1]? = some 0 ∧
    some (240 : Nat) ≠ some (224 : Nat) := by
  refine ⟨by decide, by decide, ?_, ?_, by decide⟩
  · decide
  · decide

/-- C1 (amended): for every palette index i < N (N = 16 in 4-bit mode,
N = 256 otherwise — the statement holds for every N), the raw palette bytes
at offsets 2i and 2i+1 are (rgb333 >> 1, rgb333 & 1) where
rgb333 = (r3 << 6) | (g3 << 3) | b3 is packed from the 3-bit roundings of
the BGR entry at palette offset 4i; the entry with RGB888 = (255, 128, 0)
yields r3 = 7, g3 = 4, b3 = 0, rgb333 = 0x1E0 = 480, and the byte pair
(0xF0, 0x00) = (240, 0). -/
theorem spec_C1_raw_palette :
    (∀ palette : Nat → Nat, ∀ n i : Nat, i < n →
      (create_raw_palette palette n)[2 * i]? = some (rgb333_of palette i >>> 1) ∧
      (create_raw_palette palette n)[2 * i + 1]? = some (rgb333_of palette i &&& 1)) ∧
    c8_to_c3 255 = 7 ∧ c8_to_c3 128 = 4 ∧ c8_to_c3 0 = 0 ∧
    rgb333_of examplePalette 0 = 480 ∧
    (create_raw_palette examplePalette 16)[0]? = some (480 >>> 1) ∧
    (create_raw_palette examplePalette 16)[1]? = some (480 &&& 1) ∧
    (480 : Nat) >>> 1 = 240 ∧ (480 : Nat) &&& 1 = 0 := by
  refine ⟨fun palette n i h => create_raw_palette_get palette n i h,
    by decide, by decide, by decide, by decide, ?_, ?_, by decide, by decide⟩
  · decide
  · decide

theorem spec_C1_raw_palette_witness :
    (create_raw_palette examplePalette 256)[2 * 0]? =
      some (rgb333_of examplePalette 0 >>> 1) ∧
    (create_raw_palette examplePalette 256)[2 * 0 + 1]? =
      some (rgb333_of examplePalette 0 &&& 1) :=
  spec_C1_raw_palette.1 examplePalette 256 0 (by decide)

/-- C2: in 4-bit mode, for display row y and the pixel pair at columns
(2k, 2k+1) with 2k+1 < width, the output byte is
(leftPixel & 0x0F) << 4 | (rightPixel & 0x0F); in row-major layout it is
placed at flat offset y * ((width + width % 2) / 2) + k (output row width
(width + width % 2) / 2 = ceil(width/2)), and in column-major layout at flat
offset y + k * height. -/
theorem spec_C2_4bit_pairs (image : Nat → Nat) (b2t : Bool) (paddedW w h : Nat)
    (buf : Nat → Nat) (y k : Nat) (hy : y < h) (hk : 2 * k + 1 < w)
    (hw : w + w % 2 < 4294967296) :
    conv_4bit_row image b2t paddedW w h buf (y * ((w + w % 2) / 2) + k) =
      ((display_pixel image b2t paddedW h y (2 * k) &&& 15) <<< 4) |||
        (display_pixel image b2t paddedW h y (2 * k + 1) &&& 15) ∧
    conv_4bit_col image b2t paddedW w h buf (y + k * h) =
      ((display_pixel image b2t paddedW h y (2 * k) &&& 15) <<< 4) |||
        (display_pixel image b2t paddedW h y (2 * k + 1) &&& 15) := by
  have hval : pairByte image (rowStart b2t paddedW h y) k =
      ((display_pixel image b2t paddedW h y (2 * k) &&& 15) <<< 4) |||
        (display_pixel image b2t paddedW h y (2 * k + 1) &&& 15) := by
    unfold pairByte display_pixel
    rw [Nat.add_assoc]
  constructor
  · have hd : (w + w % 2) / 2 = raw_image_width true w := by
      rw [raw4_width_eq w hw]; omega
    rw [hd, conv_4bit_row_at image b2t paddedW w h buf y k hy (by omega) hw]
    exact hval
  · rw [conv_4bit_col_at image b2t paddedW w h buf y k hy (by omega)]
    exact hval

theorem spec_C2_4bit_pairs_witness :
    conv_4bit_row (fun i => i) false 4 2 1 (fun _ => 0)
        (0 * ((2 + 2 % 2) / 2) + 0) =
      ((display_pixel (fun i => i) false 4 1 0 (2 * 0) &&& 15) <<< 4) |||
        (display_pixel (fun i => i) false 4 1 0 (2 * 0 + 1) &&& 15) ∧
    conv_4bit_col (fun i => i) false 4 2 1 (fun _ => 0) (0 + 0 * 1) =
      ((display_pixel (fun i => i) false 4 1 0 (2 * 0) &&& 15) <<< 4) |||
        (display_pixel (fun i => i) false 4 1 0 (2 * 0 + 1) &&& 15) :=
  spec_C2_4bit_pairs (fun i => i) false 4 2 1 (fun _ => 0) 0 0 (by decide)
    (by decide) (by decide)

/-- C3: in 8-bit mode the raw image has length width * height; in row-major
layout the byte at flat offset y*width + x is the source pixel at display
position (y, x), and in column-major layout the byte at flat offset
y + x*height is the source pixel at display position (y, x). -/
theorem spec_C3_8bit_copy (image : Nat → Nat) (b2t : Bool) (paddedW w h : Nat)
    (buf : Nat → Nat) (colMajor : Bool) (y x : Nat) (hwh : w * h < 4294967296)
    (hy : y < h) (hx : x < w) :
    (raw_image_bytes image b2t paddedW w h false colMajor).length = w * h ∧
    conv_8bit_row image b2t paddedW w h buf (y * w + x) =
      display_pixel image b2t paddedW h y x ∧
    conv_8bit_col image b2t paddedW w h buf (y + x * h) =
      display_pixel image b2t paddedW h y x := by
  refine ⟨?_, conv_8bit_row_at image b2t paddedW w h buf y x hy hx,
    conv_8bit_col_at image b2t paddedW w h buf y x hy hx⟩
  simp only [raw_image_bytes, List.length_map, List.length_range,
    raw_image_size, raw_image_width, Bool.false_eq_true, if_false]
  omega

theorem spec_C3_8bit_copy_witness :
    (raw_image_bytes (fun i => i) false 4 2 1 false false).length = 2 * 1 ∧
    conv_8bit_row (fun i => i) false 4 2 1 (fun _ => 0) (0 * 2 + 1) =
      display_pixel (fun i => i) false 4 1 0 1 ∧
    conv_8bit_col (fun i => i) false 4 2 1 (fun _ => 0) (0 + 1 * 1) =
      display_pixel (fun i => i) false 4 1 0 1 :=
  spec_C3_8bit_copy (fun i => i) false 4 2 1 (fun _ => 0) false 0 1
    (by decide) (by decide) (by decide)

/-- C9: in 4-bit mode with odd width, the last output byte of display row y
(pair index width/2, columns width-1 and width) takes its low nibble from the
source row byte at column index width — the row's first padding byte — and
that read stays inside the padded image buffer because
paddedRowWidth >= width + 1 for odd width. -/
theorem spec_C9_odd_width_padding (image : Nat → Nat) (b2t : Bool)
    (w h y : Nat) (buf : Nat → Nat) (hodd : w % 2 = 1) (hy : y < h)
    (hw32 : w + 3 < 4294967296) :
    w + 1 ≤ padded_image_width w ∧
    conv_4bit_row image b2t (padded_image_width w) w h buf
        (y * ((w + w % 2) / 2) + w / 2) &&& 15 =
      image (rowStart b2t (padded_image_width w) h y + w) &&& 15 ∧
    rowStart b2t (padded_image_width w) h y + w < padded_image_width w * h := by
  have hpad : w + 1 ≤ padded_image_width w := by
    unfold padded_image_width; omega
  refine ⟨hpad, ?_, ?_⟩
  · have hd : (w + w % 2) / 2 = raw_image_width true w := by
      rw [raw4_width_eq w (by omega)]; omega
    rw [hd, conv_4bit_row_at image b2t (padded_image_width w) w h buf y (w / 2)
      hy (by omega) (by omega)]
    unfold pairByte
    rw [show rowStart b2t (padded_image_width w) h y + 2 * (w / 2) + 1 =
      rowStart b2t (padded_image_width w) h y + w by omega]
    exact nibble_shift_lor_and _ (Nat.and_le_right) _ (Nat.and_le_right)
  · unfold rowStart
    cases b2t with
    | false =>
      simp only [if_neg Bool.false_ne_true]
      calc y * padded_image_width w + w
          < y * padded_image_width w + padded_image_width w := by omega
        _ = (y + 1) * padded_image_width w := (Nat.succ_mul y _).symm
        _ ≤ h * padded_image_width w :=
            Nat.mul_le_mul_right _ (Nat.succ_le_of_lt hy)
        _ = padded_image_width w * h := Nat.mul_comm _ _
    | true =>
      simp only [if_pos rfl]
      calc (h - 1 - y) * padded_image_width w + w
          < (h - 1 - y) * padded_image_width w + padded_image_width w := by omega
        _ = (h - 1 - y + 1) * padded_image_width w := (Nat.succ_mul _ _).symm
        _ ≤ h * padded_image_width w := Nat.mul_le_mul_right _ (by omega)
        _ = padded_image_width w * h := Nat.mul_comm _ _

theorem spec_C9_odd_width_padding_witness :
    3 + 1 ≤ padded_image_width 3 ∧
    conv_4bit_row (fun i => i) false (padded_image_width 3) 3 1 (fun _ => 0)
        (0 * ((3 + 3 % 2) / 2) + 3 / 2) &&& 15 =
      (fun i => (i : Nat)) (rowStart false (padded_image_width 3) 1 0 + 3) &&& 15 ∧
    rowStart false (padded_image_width 3) 1 0 + 3 < padded_image_width 3 * 1 :=
  spec_C9_odd_width_padding (fun i => i) false 3 1 0 (fun _ => 0) (by decide)
    (by decide) (by decide)

/-- C6: two source images with the same width, height magnitude and row
content, one stored bottom-to-top and the other top-to-bottom, produce
identical raw image bytes under every (bit depth, layout) mode: rows are
always emitted in display order. The content hypothesis says that for every
display row y the padded row bytes seen by the bottom-to-top walk of image1
equal those seen by the top-to-bottom walk of image2. -/
theorem spec_C6_row_order_equiv (image1 image2 : Nat → Nat) (w h : Nat)
    (use4 colMajor : Bool) (hw0 : 0 < w) (hw32 : w + 3 < 4294967296)
    (hcontent : ∀ y < h, ∀ x < padded_image_width w,
      image1 (rowStart true (padded_image_width w) h y + x) =
        image2 (rowStart false (padded_image_width w) h y + x)) :
    raw_image_bytes image1 true (padded_image_width w) w h use4 colMajor =
      raw_image_bytes image2 false (padded_image_width w) w h use4 colMajor := by
  unfold raw_image_bytes
  apply List.map_congr_left
  intro j hj
  rw [List.mem_range] at hj
  have hple : w ≤ padded_image_width w := by unfold padded_image_width; omega
  cases colMajor with
  | false =>
    cases use4 with
    | false =>
      show conv_8bit_row image1 true (padded_image_width w) w h (fun _ => 0) j =
        conv_8bit_row image2 false (padded_image_width w) w h (fun _ => 0) j
      have hjwh : j < w * h := by
        have h1 : raw_image_size false w h ≤ raw_image_width false w * h :=
          Nat.mod_le _ _
        have h2 : raw_image_width false w = w := rfl
        rw [h2] at h1
        omega
      have hy : j / w < h := (Nat.div_lt_iff_lt_mul hw0).2
        (by rw [Nat.mul_comm h w]; exact hjwh)
      have hx : j % w < w := Nat.mod_lt j hw0
      have hj2 : j = j / w * w + j % w := by
        rw [Nat.mul_comm]; exact (Nat.div_add_mod j w).symm
      rw [hj2, conv_8bit_row_at image1 true _ w h _ _ _ hy hx,
        conv_8bit_row_at image2 false _ w h _ _ _ hy hx]
      unfold display_pixel
      exact hcontent (j / w) hy (j % w) (by omega)
    | true =>
      show conv_4bit_row image1 true (padded_image_width w) w h (fun _ => 0) j =
        conv_4bit_row image2 false (padded_image_width w) w h (fun _ => 0) j
      have hwmod : w + w % 2 < 4294967296 := by omega
      have hrw : raw_image_width true w = (w + 1) / 2 := raw4_width_eq w hwmod
      have hrw0 : 0 < (w + 1) / 2 := by omega
      have hjwh : j < (w + 1) / 2 * h := by
        have h1 : raw_image_size true w h ≤ raw_image_width true w * h :=
          Nat.mod_le _ _
        rw [hrw] at h1
        omega
      have hy : j / ((w + 1) / 2) < h := (Nat.div_lt_iff_lt_mul hrw0).2
        (by rw [Nat.mul_comm h ((w + 1) / 2)]; exact hjwh)
      have hk : j % ((w + 1) / 2) < (w + 1) / 2 := Nat.mod_lt j hrw0
      have hj2 : j = j / ((w + 1) / 2) * raw_image_width true w + j % ((w + 1) / 2) := by
        rw [hrw, Nat.mul_comm]; exact (Nat.div_add_mod j ((w + 1) / 2)).symm
      rw [hj2, conv_4bit_row_at image1 true _ w h _ _ _ hy (by omega) hwmod,
        conv_4bit_row_at image2 false _ w h _ _ _ hy (by omega) hwmod]
      unfold pairByte
      have e1 := hcontent (j / ((w + 1) / 2)) hy (2 * (j % ((w + 1) / 2)))
        (by unfold padded_image_width; omega)
      have e2 := hcontent (j / ((w + 1) / 2)) hy (2 * (j % ((w + 1) / 2)) + 1)
        (by unfold padded_image_width; omega)
      have e2' : image1 (rowStart true (padded_image_width w) h (j / ((w + 1) / 2)) +
            2 * (j % ((w + 1) / 2)) + 1) =
          image2 (rowStart false (padded_image_width w) h (j / ((w + 1) / 2)) +
            2 * (j % ((w + 1) / 2)) + 1) := by
        rw [Nat.add_assoc, Nat.add_assoc]; exact e2
      rw [e1, e2']
  | true =>
    have hh0 : 0 < h := by
      rcases Nat.eq_zero_or_pos h with h0 | h0
      · exfalso
        rw [h0] at hj
        simp [raw_image_size] at hj
      · exact h0
    cases use4 with
    | false =>
      show conv_8bit_col image1 true (padded_image_width w) w h (fun _ => 0) j =
        conv_8bit_col image2 false (padded_image_width w) w h (fun _ => 0) j
      have hjwh : j < w * h := by
        have h1 : raw_image_size false w h ≤ raw_image_width false w * h :=
          Nat.mod_le _ _
        have h2 : raw_image_width false w = w := rfl
        rw [h2] at h1
        omega
      have hy : j % h < h := Nat.mod_lt j hh0
      have hx : j / h < w := (Nat.div_lt_iff_lt_mul hh0).2 hjwh
      have hj2 : j = j % h + j / h * h := by
        rw [Nat.mul_comm]; exact (Nat.mod_add_div j h).symm
      rw [hj2, conv_8bit_col_at image1 true _ w h _ _ _ hy hx,
        conv_8bit_col_at image2 false _ w h _ _ _ hy hx]
      unfold display_pixel
      exact hcontent (j % h) hy (j / h) (by omega)
    | true =>
      show conv_4bit_col image1 true (padded_image_width w) w h (fun _ => 0) j =
        conv_4bit_col image2 false (padded_image_width w) w h (fun _ => 0) j
      have hwmod : w + w % 2 < 4294967296 := by omega
      have hrw : raw_image_width true w = (w + 1) / 2 := raw4_width_eq w hwmod
      have hjwh : j < (w + 1) / 2 * h := by
        have h1 : raw_image_size true w h ≤ raw_image_width true w * h :=
          Nat.mod_le _ _
        rw [hrw] at h1
        omega
      have hy : j % h < h := Nat.mod_lt j hh0
      have hk : j / h < (w + 1) / 2 := (Nat.div_lt_iff_lt_mul hh0).2 hjwh
      have hj2 : j = j % h + j / h * h := by
        rw [Nat.mul_comm]; exact (Nat.mod_add_div j h).symm
      rw [hj2, conv_4bit_col_at image1 true _ w h _ _ _ hy (by omega),
        conv_4bit_col_at image2 false _ w h _ _ _ hy (by omega)]
      unfold pairByte
      have e1 := hcontent (j % h) hy (2 * (j / h))
        (by unfold padded_image_width; omega)
      have e2 := hcontent (j % h) hy (2 * (j / h) + 1)
        (by unfold padded_image_width; omega)
      have e2' : image1 (rowStart true (padded_image_width w) h (j % h) +
            2 * (j / h) + 1) =
          image2 (rowStart false (padded_image_width w) h (j % h) +
            2 * (j / h) + 1) := by
        rw [Nat.add_assoc, Nat.add_assoc]; exact e2
      rw [e1, e2']

/-- A 2x2 source image stored bottom-to-top: storage row 0 holds the value
10, storage row 1 holds 20 (padded row width 4). -/
def exampleImageBtT : Nat → Nat := fun i => if i < 4 then 10 else 20

/-- The same display content stored top-to-bottom: display row 0 (value 20)
first. -/
def exampleImageTtB : Nat → Nat := fun i => if i < 4 then 20 else 10

theorem spec_C6_row_order_equiv_witness :
    raw_image_bytes exampleImageBtT true (padded_image_width 2) 2 2 false false =
      raw_image_bytes exampleImageTtB false (padded_image_width 2) 2 2 false false :=
  spec_C6_row_order_equiv exampleImageBtT exampleImageTtB 2 2 false false
    (by decide) (by decide) (by decide)

/-- A header that passes every validation step although
width * |height| = 65536 * 65536 = 2^32 is (mathematically) at least the
declared file size 1082: the 32-bit product wraps to 0. Fields: signature BM,
file size 1082, pixel offset 54, DIB header size 40, width 65536,
height 65536, bpp 8, compression 0. -/
def headerC4 : Nat → Nat :=
  fun i => [66, 77, 58, 4, 0, 0, 0, 0, 0, 0, 54, 0, 0, 0, 40, 0, 0, 0,
    0, 0, 1, 0, 0, 0, 1, 0, 0, 0, 8, 0, 0, 0, 0, 0].getD i 0

/-- C4 counterexample: the direct reading of the claim — the validator fails
with InvalidImageSize whenever width * |height| >= fileSize over the
mathematical integers — is false: headerC4 has width * |height| = 2^32 >=
1082 = fileSize, yet the validator accepts it, because the product is
computed in 32-bit arithmetic and wraps to 0. -/
theorem spec_C4_counterexample :
    is_valid_bmp_file headerC4 = Except.ok ⟨54, 54, 65536, 65536⟩ ∧
    le32 headerC4 18 * (int32ofLe (le32 headerC4 22)).natAbs ≥ le32 headerC4 2 ∧
    Except.ok (⟨54, 54, 65536, 65536⟩ : BmpInfo) ≠
      Except.error BmpError.InvalidImageSize := by
  refine ⟨rfl, by decide, by simp⟩

/-- C4 (amended): for every header that passes the preceding validation
steps, the validator fails with InvalidImageSize exactly when
(width * |height|) mod 2^32 >= declared fileSize — the product is 32-bit
(uint32) arithmetic, not mathematical-integer arithmetic. -/
theorem spec_C4_image_size_check (header : Nat → Nat)
    (h0 : header 0 = 66) (h1 : header 1 = 77)
    (hfs : ¬ le32 header 2 < 1082)
    (hio : ¬ le32 header 10 ≥ le32 header 2)
    (hdib : ¬ le32 header 14 < 40)
    (hw : ¬ le32 header 18 = 0)
    (hh : ¬ int32ofLe (le32 header 22) = 0) :
    is_valid_bmp_file header = Except.error BmpError.InvalidImageSize ↔
      (le32 header 18 * (int32ofLe (le32 header 22)).natAbs) % 4294967296 ≥
        le32 header 2 := by
  unfold is_valid_bmp_file
  rw [if_neg (by simp [h0, h1]), if_neg hfs, if_neg hio, if_neg hdib,
    if_neg hw, if_neg hh]
  constructor
  · intro hres
    by_contra hc
    rw [if_neg hc] at hres
    split_ifs at hres <;> simp_all
  · intro hc
    rw [if_pos hc]

theorem spec_C4_image_size_check_witness :
    (is_valid_bmp_file headerC4 = Except.error BmpError.InvalidImageSize ↔
      (le32 headerC4 18 * (int32ofLe (le32 headerC4 22)).natAbs) % 4294967296 ≥
        le32 headerC4 2) :=
  spec_C4_image_size_check headerC4 (by decide) (by decide) (by decide)
    (by decide) (by decide) (by decide) (by decide)

/-- A header accepted by the validator although
paddedRowWidth * height = 4 * 1081 = 4324 >= 1082 = fileSize: the validator
only bounds the unpadded product width * |height| = 1081 < 1082. Fields:
signature BM, file size 1082, pixel offset 54, DIB size 40, width 1,
height 1081, bpp 8, compression 0. -/
def headerC5 : Nat → Nat :=
  fun i => [66, 77, 58, 4, 0, 0, 0, 0, 0, 0, 54, 0, 0, 0, 40, 0, 0, 0,
    1, 0, 0, 0, 57, 4, 0, 0, 0, 0, 8, 0, 0, 0, 0, 0].getD i 0

/-- C5 counterexample: the invariant paddedRowWidth * height < fileSize does
not hold for every input accepted by the validator: headerC5 is accepted
(width 1, height 1081, declared file size 1082) yet
paddedRowWidth * height = 4 * 1081 = 4324 >= 1082. The code validates the
unpadded product width * |height|, never the padded one. -/
theorem spec_C5_counterexample :
    is_valid_bmp_file headerC5 = Except.ok ⟨54, 54, 1, 1081⟩ ∧
    padded_image_width 1 * 1081 ≥ le32 headerC5 2 := by
  refine ⟨rfl, by decide⟩

/-- C5 (amended): for every input accepted by the validator,
(width * |height|) mod 2^32 < fileSize and pixelOffset < fileSize both hold;
these are the two size checks the validator performs (before any allocation).
The bound on paddedRowWidth * height claimed by the spec is not established
by the code. -/
theorem spec_C5_validated_invariants (header : Nat → Nat) (info : BmpInfo)
    (hok : is_valid_bmp_file header = Except.ok info) :
    (info.width * info.height.natAbs) % 4294967296 < le32 header 2 ∧
    info.image_offset < le32 header 2 := by
  unfold is_valid_bmp_file at hok
  split_ifs at hok with g1 g2 g3 g4 g5 g6 g7 g8 g9
  injection hok with h
  subst h
  refine ⟨?_, ?_⟩
  · show (le32 header 18 * (int32ofLe (le32 header 22)).natAbs) % 4294967296 <
      le32 header 2
    omega
  · show le32 header 10 < le32 header 2
    omega

theorem spec_C5_validated_invariants_witness :
    (BmpInfo.width ⟨54, 54, 1, 1081⟩ *
        (BmpInfo.height ⟨54, 54, 1, 1081⟩).natAbs) % 4294967296 <
      le32 headerC5 2 ∧
    BmpInfo.image_offset ⟨54, 54, 1, 1081⟩ < le32 headerC5 2 :=
  spec_C5_validated_invariants headerC5 ⟨54, 54, 1, 1081⟩ rfl

/-- A header whose width field is zero and whose earlier fields pass all
preceding checks. -/
def headerC7width : Nat → Nat :=
  fun i => [66, 77, 58, 4, 0, 0, 0, 0, 0, 0, 54, 0, 0, 0, 40, 0, 0, 0].getD i 0

/-- A header with bits-per-pixel 24 and all earlier checks passing
(width 1, height 1). -/
def headerC7bpp : Nat → Nat :=
  fun i => [66, 77, 58, 4, 0, 0, 0, 0, 0, 0, 54, 0, 0, 0, 40, 0, 0, 0,
    1, 0, 0, 0, 1, 0, 0, 0, 0, 0, 24, 0].getD i 0

/-- A header with compression method 1 and all earlier checks passing
(width 1, height 1, bpp 8). -/
def headerC7comp : Nat → Nat :=
  fun i => [66, 77, 58, 4, 0, 0, 0, 0, 0, 0, 54, 0, 0, 0, 40, 0, 0, 0,
    1, 0, 0, 0, 1, 0, 0, 0, 0, 0, 8, 0, 1, 0, 0, 0].getD i 0

/-- C7: each malformed input is rejected with its specific diagnosis, before
any transformation: fewer than 54 header bytes gives TruncatedHeader; a bad
two-byte signature (with enough bytes) gives NotABmpFile; a zero width field
(with all earlier checks passing) gives InvalidWidth; bits-per-pixel other
than 8 (earlier checks passing) gives UnsupportedBitDepth; nonzero
compression (earlier checks passing) gives UnsupportedCompression. -/
theorem spec_C7_malformed_inputs :
    (∀ file : List Nat, file.length < 54 →
      validate_file file = Except.error BmpError.TruncatedHeader) ∧
    (∀ file : List Nat, 54 ≤ file.length →
      (file.getD 0 0 ≠ 66 ∨ file.getD 1 0 ≠ 77) →
      validate_file file = Except.error BmpError.NotABmpFile) ∧
    (∀ header : Nat → Nat, ¬(header 0 ≠ 66 ∨ header 1 ≠ 77) →
      ¬ le32 header 2 < 1082 → ¬ le32 header 10 ≥ le32 header 2 →
      ¬ le32 header 14 < 40 → le32 header 18 = 0 →
      is_valid_bmp_file header = Except.error BmpError.InvalidWidth) ∧
    (∀ header : Nat → Nat, ¬(header 0 ≠ 66 ∨ header 1 ≠ 77) →
      ¬ le32 header 2 < 1082 → ¬ le32 header 10 ≥ le32 header 2 →
      ¬ le32 header 14 < 40 → ¬ le32 header 18 = 0 →
      ¬ int32ofLe (le32 header 22) = 0 →
      ¬ (le32 header 18 * (int32ofLe (le32 header 22)).natAbs) % 4294967296 ≥
          le32 header 2 →
      le16 header 28 ≠ 8 →
      is_valid_bmp_file header = Except.error BmpError.UnsupportedBitDepth) ∧
    (∀ header : Nat → Nat, ¬(header 0 ≠ 66 ∨ header 1 ≠ 77) →
      ¬ le32 header 2 < 1082 → ¬ le32 header 10 ≥ le32 header 2 →
      ¬ le32 header 14 < 40 → ¬ le32 header 18 = 0 →
      ¬ int32ofLe (le32 header 22) = 0 →
      ¬ (le32 header 18 * (int32ofLe (le32 header 22)).natAbs) % 4294967296 ≥
          le32 header 2 →
      ¬ le16 header 28 ≠ 8 → le32 header 30 ≠ 0 →
      is_valid_bmp_file header = Except.error BmpError.UnsupportedCompression) := by
  refine ⟨?_, ?_, ?_, ?_, ?_⟩
  · intro file hlen
    unfold validate_file
    rw [if_pos hlen]
  · intro file hlen hsig
    unfold validate_file
    rw [if_neg (by omega)]
    unfold is_valid_bmp_file
    rw [if_pos hsig]
  · intro header hsig hfs hio hdib hw
    unfold is_valid_bmp_file
    rw [if_neg hsig, if_neg hfs, if_neg hio, if_neg hdib, if_pos hw]
  · intro header hsig hfs hio hdib hw hh hsz hbpp
    unfold is_valid_bmp_file
    rw [if_neg hsig, if_neg hfs, if_neg hio, if_neg hdib, if_neg hw, if_neg hh,
      if_neg hsz, if_pos hbpp]
  · intro header hsig hfs hio hdib hw hh hsz hbpp hcomp
    unfold is_valid_bmp_file
    rw [if_neg hsig, if_neg hfs, if_neg hio, if_neg hdib, if_neg hw, if_neg hh,
      if_neg hsz, if_neg hbpp, if_pos hcomp]

theorem spec_C7_malformed_inputs_witness :
    validate_file (List.replicate 53 0) = Except.error BmpError.TruncatedHeader ∧
    validate_file ([88, 89] ++ List.replicate 52 0) =
      Except.error BmpError.NotABmpFile ∧
    is_valid_bmp_file headerC7width = Except.error BmpError.InvalidWidth ∧
    is_valid_bmp_file headerC7bpp = Except.error BmpError.UnsupportedBitDepth ∧
    is_valid_bmp_file headerC7comp =
      Except.error BmpError.UnsupportedCompression :=
  ⟨spec_C7_malformed_inputs.1 _ (by decide),
   spec_C7_malformed_inputs.2.1 _ (by decide) (by decide),
   spec_C7_malformed_inputs.2.2.1 headerC7width (by decide) (by decide)
     (by decide) (by decide) (by decide),
   spec_C7_malformed_inputs.2.2.2.1 headerC7bpp (by decide) (by decide)
     (by decide) (by decide) (by decide) (by decide) (by decide) (by decide),
   spec_C7_malformed_inputs.2.2.2.2 headerC7comp (by decide) (by decide)
     (by decide) (by decide) (by decide) (by decide) (by decide) (by decide)
     (by decide)⟩

/-- The three palette placement options (nextraw.c lines 67-72). -/
inductive PaletteOption where
  | EMBEDDED
  | SEPARATE
  | NONE
deriving DecidableEq

/-- The files on disk after the output phase: the contents of the raw image
file and of the separate palette file, when each has been created. -/
structure OutState where
  out_file : Option (List Nat)
  palette_file : Option (List Nat)
deriving DecidableEq

/-- Model of the output-writing phase of main (nextraw.c lines 415-524).
Each fopen or fwrite either succeeds fully or fails, controlled by the four
Bool parameters; a failed fwrite is modelled as writing nothing (any short
write leaves the file with a proper prefix of the data — zero bytes is the
concrete choice). On any failure the program calls exit_with_msg, which
frees the in-memory buffers via the atexit handler and terminates with a
failure status; it never removes or truncates an already created file, so
whatever was in the file at that point stays on disk. The Bool in the
result is true exactly for the successful run. -/
def write_outputs (palOpt : PaletteOption) (rawPal rawImg : List Nat)
    (outOpenOk palOpenOk palWriteOk imgWriteOk : Bool) : OutState × Bool :=
  if ¬outOpenOk then (⟨none, none⟩, false)
  else
    match palOpt with
    | .EMBEDDED =>
      if ¬palWriteOk then (⟨some [], none⟩, false)
      else if ¬imgWriteOk then (⟨some rawPal, none⟩, false)
      else (⟨some (rawPal ++ rawImg), none⟩, true)
    | .SEPARATE =>
      if ¬palOpenOk then (⟨some [], none⟩, false)
      else if ¬palWriteOk then (⟨some [], some []⟩, false)
      else if ¬imgWriteOk then (⟨some [], some rawPal⟩, false)
      else (⟨some rawImg, some rawPal⟩, true)
    | .NONE =>
      if ¬imgWriteOk then (⟨some [], none⟩, false)
      else (⟨some rawImg, none⟩, true)

/-- C8 counterexample: a failing run can leave a partially written output
file behind. With embedded palette, palette [1] and image [2], a successful
palette write followed by a failing raw-image write terminates the run with
an error, yet the raw image file is left on disk holding only the palette
bytes [1] — a nonempty proper part of the intended contents [1, 2]. -/
theorem spec_C8_counterexample :
    write_outputs PaletteOption.EMBEDDED [1] [2] true true true false =
      (⟨some [1], none⟩, false) ∧
    ([1] : List Nat) ≠ [] ∧ ([1] : List Nat) ≠ [1] ++ [2] := by
  refine ⟨rfl, by decide, by decide⟩

/-- C8 (amended): every failing run terminates with a failure status, but
the program never removes an already created output file: in embedded mode a
raw-image write failure leaves the output file holding exactly the palette
bytes; a fully successful run leaves the complete intended contents. -/
theorem spec_C8_error_exit (rawPal rawImg : List Nat) :
    write_outputs PaletteOption.EMBEDDED rawPal rawImg true true true false =
      (⟨some rawPal, none⟩, false) ∧
    write_outputs PaletteOption.EMBEDDED rawPal rawImg true true true true =
      (⟨some (rawPal ++ rawImg), none⟩, true) ∧
    write_outputs PaletteOption.SEPARATE rawPal rawImg true true true false =
      (⟨some [], some rawPal⟩, false) ∧
    write_outputs PaletteOption.SEPARATE rawPal rawImg true true true true =
      (⟨some rawImg, some rawPal⟩, true) ∧
    write_outputs PaletteOption.NONE rawPal rawImg true true true false =
      (⟨some [], none⟩, false) ∧
    write_outputs PaletteOption.NONE rawPal rawImg true true true true =
      (⟨some rawImg, none⟩, true) :=
  ⟨rfl, rfl, rfl, rfl, rfl, rfl⟩

/-- bottom_to_top_image = (image_height > 0) (nextraw.c line 376). -/
def bottom_to_top (height : Int) : Bool :=
  decide (0 < height)

/-- The reading-and-converting pipeline of main once the header has been
validated (nextraw.c lines 374-413 and 445-517), for a successfully parsed
header info:

* image_size = padded_image_width * image_height in uint32 (line 379);
* if the palette option is not NONE, the palette read (fseek to
  palette_offset, fread of 1024 bytes, lines 387-397) fails when the file
  holds fewer than palette_offset + 1024 bytes;
* the image read (fseek to image_offset, fread of image_size bytes,
  lines 398-405) fails when the file holds fewer than
  image_offset + image_size bytes;
* otherwise the image buffer holds the image_size bytes starting at
  image_offset and the repacking loops produce the raw image bytes. Reads
  past the end of the malloc-ed image buffer are modelled as 0. -/
def run_conversion_ok (file : List Nat) (palOpt : PaletteOption)
    (use4 colMajor : Bool) (info : BmpInfo) : Except BmpError (List Nat) :=
  if palOpt ≠ PaletteOption.NONE ∧ file.length < info.palette_offset + 1024 then
    .error .IoErrorPaletteRead
  else if file.length < info.image_offset +
      (padded_image_width info.width * info.height.natAbs) % 4294967296 then
    .error .IoErrorImageRead
  else
    .ok (raw_image_bytes
      (fun i =>
        if i < (padded_image_width info.width * info.height.natAbs) % 4294967296
        then file.getD (info.image_offset + i) 0 else 0)
      (bottom_to_top info.height) (padded_image_width info.width)
      info.width info.height.natAbs use4 colMajor)

/-- The whole pipeline: validate the header, then read and convert. -/
def run_conversion (file : List Nat) (palOpt : PaletteOption)
    (use4 colMajor : Bool) : Except BmpError (List Nat) :=
  match validate_file file with
  | .error e => .error e
  | .ok info => run_conversion_ok file palOpt use4 colMajor info

theorem run_conversion_of_valid (file : List Nat) (palOpt : PaletteOption)
    (use4 colMajor : Bool) (info : BmpInfo)
    (h : validate_file file = Except.ok info) :
    run_conversion file palOpt use4 colMajor =
      run_conversion_ok file palOpt use4 colMajor info := by
  unfold run_conversion
  rw [h]

theorem le32_congr (f g : Nat → Nat) (h : ∀ j < 54, f j = g j) (o : Nat)
    (ho : o + 3 < 54) : le32 f o = le32 g o := by
  unfold le32
  rw [h o (by omega), h (o + 1) (by omega), h (o + 2) (by omega),
    h (o + 3) (by omega)]

theorem le16_congr (f g : Nat → Nat) (h : ∀ j < 54, f j = g j) (o : Nat)
    (ho : o + 1 < 54) : le16 f o = le16 g o := by
  unfold le16
  rw [h o (by omega), h (o + 1) (by omega)]

theorem is_valid_bmp_file_congr (f g : Nat → Nat) (h : ∀ j < 54, f j = g j) :
    is_valid_bmp_file f = is_valid_bmp_file g := by
  unfold is_valid_bmp_file
  rw [h 0 (by omega), h 1 (by omega), le32_congr f g h 2 (by omega),
    le32_congr f g h 10 (by omega), le32_congr f g h 14 (by omega),
    le32_congr f g h 18 (by omega), le32_congr f g h 22 (by omega),
    le32_congr f g h 30 (by omega), le16_congr f g h 28 (by omega)]

theorem validate_file_congr (f1 f2 : List Nat) (hlen : f1.length = f2.length)
    (h54 : ∀ j < 54, f1.getD j 0 = f2.getD j 0) :
    validate_file f1 = validate_file f2 := by
  unfold validate_file
  rw [hlen, is_valid_bmp_file_congr (fun i => f1.getD i 0)
    (fun i => f2.getD i 0) (fun j hj => h54 j hj)]

/-- C10: with palette placement None the palette region is never read and no
palette conversion happens. First part: two files of equal length that agree
on the 54 header bytes and on the image data region produce identical
results under placement None, whatever the rest of their contents (in
particular the palette region) holds. Second part: for a file with a valid
header, a run with placement None fails only when the image data itself
cannot be read (never with a palette read error), and otherwise succeeds
with the converted image bytes. -/
theorem spec_C10_no_palette_skips_palette :
    (∀ f1 f2 : List Nat, ∀ use4 colMajor : Bool, ∀ info : BmpInfo,
      validate_file f1 = Except.ok info →
      f1.length = f2.length →
      (∀ j < 54, f1.getD j 0 = f2.getD j 0) →
      (∀ j < (padded_image_width info.width * info.height.natAbs) % 4294967296,
        f1.getD (info.image_offset + j) 0 = f2.getD (info.image_offset + j) 0) →
      run_conversion f1 PaletteOption.NONE use4 colMajor =
        run_conversion f2 PaletteOption.NONE use4 colMajor) ∧
    (∀ f : List Nat, ∀ use4 colMajor : Bool, ∀ info : BmpInfo,
      validate_file f = Except.ok info →
      run_conversion f PaletteOption.NONE use4 colMajor =
        if f.length < info.image_offset +
            (padded_image_width info.width * info.height.natAbs) % 4294967296
        then Except.error BmpError.IoErrorImageRead
        else Except.ok (raw_image_bytes
          (fun i =>
            if i < (padded_image_width info.width * info.height.natAbs) %
                4294967296
            then f.getD (info.image_offset + i) 0 else 0)
          (bottom_to_top info.height) (padded_image_width info.width)
          info.width info.height.natAbs use4 colMajor)) := by
  constructor
  · intro f1 f2 use4 colMajor info hok hlen h54 himg
    have hv2 : validate_file f2 = Except.ok info := by
      rw [← validate_file_congr f1 f2 hlen h54]
      exact hok
    rw [run_conversion_of_valid f1 _ _ _ info hok,
      run_conversion_of_valid f2 _ _ _ info hv2]
    unfold run_conversion_ok
    simp only [ne_eq, eq_self_iff_true, not_true, false_and, if_false]
    rw [hlen]
    by_cases hcase : f2.length < info.image_offset +
        (padded_image_width info.width * info.height.natAbs) % 4294967296
    · rw [if_pos hcase, if_pos hcase]
    · rw [if_neg hcase, if_neg hcase]
      have hbuf : (fun i =>
          if i < (padded_image_width info.width * info.height.natAbs) % 4294967296
          then f1.getD (info.image_offset + i) 0 else 0) =
        (fun i =>
          if i < (padded_image_width info.width * info.height.natAbs) % 4294967296
          then f2.getD (info.image_offset + i) 0 else 0) := by
        funext i
        by_cases hi : i < (padded_image_width info.width * info.height.natAbs) %
            4294967296
        · rw [if_pos hi, if_pos hi, himg i hi]
        · rw [if_neg hi, if_neg hi]
      rw [hbuf]
  · intro f use4 colMajor info hok
    rw [run_conversion_of_valid f _ _ _ info hok]
    unfold run_conversion_ok
    rw [if_neg (by simp)]

/-- A 62-byte file with a valid header: width 2, height 1, declared file
size 1082, pixel data [5, 6, 7, 8] at offset 54, then four trailing bytes. -/
def fileC10a : List Nat :=
  [66, 77, 58, 4, 0, 0, 0, 0, 0, 0, 54, 0, 0, 0, 40, 0, 0, 0, 2, 0, 0, 0,
    1, 0, 0, 0, 0, 0, 8, 0, 0, 0, 0, 0] ++ List.replicate 20 0 ++
    [5, 6, 7, 8] ++ [0, 0, 0, 0]

/-- The same file except for one byte at offset 58, inside the palette
region [54, 1078) and outside the image data region [54, 58). -/
def fileC10b : List Nat :=
  [66, 77, 58, 4, 0, 0, 0, 0, 0, 0, 54, 0, 0, 0, 40, 0, 0, 0, 2, 0, 0, 0,
    1, 0, 0, 0, 0, 0, 8, 0, 0, 0, 0, 0] ++ List.replicate 20 0 ++
    [5, 6, 7, 8] ++ [9, 0, 0, 0]

theorem spec_C10_no_palette_skips_palette_witness :
    run_conversion fileC10a PaletteOption.NONE false false =
      run_conversion fileC10b PaletteOption.NONE false false ∧
    run_conversion fileC10a PaletteOption.NONE false false =
      (if fileC10a.length < (⟨54, 54, 2, 1⟩ : BmpInfo).image_offset +
          (padded_image_width (⟨54, 54, 2, 1⟩ : BmpInfo).width *
            ((⟨54, 54, 2, 1⟩ : BmpInfo).height).natAbs) % 4294967296
      then Except.error BmpError.IoErrorImageRead
      else Except.ok (raw_image_bytes
        (fun i =>
          if i < (padded_image_width (⟨54, 54, 2, 1⟩ : BmpInfo).width *
              ((⟨54, 54, 2, 1⟩ : BmpInfo).height).natAbs) % 4294967296
          then fileC10a.getD ((⟨54, 54, 2, 1⟩ : BmpInfo).image_offset + i) 0
          else 0)
        (bottom_to_top (⟨54, 54, 2, 1⟩ : BmpInfo).height)
        (padded_image_width (⟨54, 54, 2, 1⟩ : BmpInfo).width)
        (⟨54, 54, 2, 1⟩ : BmpInfo).width
        ((⟨54, 54, 2, 1⟩ : BmpInfo).height).natAbs false false)) :=
  ⟨spec_C10_no_palette_skips_palette.1 fileC10a fileC10b false false
      ⟨54, 54, 2, 1⟩ rfl rfl (by decide) (by decide),
    spec_C10_no_palette_skips_palette.2 fileC10a false false
      ⟨54, 54, 2, 1⟩ rfl⟩

end Nextraw
